import Mathlib

/-!
# Verification of the angr value/copy-propagation pass

A shallow embedding of `src/angr/analyses/propagator/propagator.py` and
`src/angr/analyses/propagator/engine_ail.py`, covering the pieces of the
data model and transfer engine the claims are about:

* the AIL expression AST (a closed subset of the `ailment` node kinds the
  engine handles), with claripy bit-vector values and the `values.Top`
  sentinel folded into one value universe, since the Python code passes
  both through the same variables;
* `PropagatorState` / `PropagatorAILState`: the replacement table,
  propagation-use counter, equivalence set, register store and tmp map,
  with `add_replacement`, `filter_replacements`, `add_equivalence`,
  `store_variable`, `get_variable`, `merge`;
* `PropagatorVEXState.load_register`;
* the expression handlers of `SimEnginePropagatorAIL` (`_ail_handle_Tmp`,
  `_ail_handle_Register`, `_ail_handle_Convert`, `_ail_handle_Add`,
  `_ail_handle_Sub`, `_ail_handle_Xor`, `_ail_handle_Shl`,
  `_ail_handle_Shr`, `_ail_handle_CallExpr`), the `_ail_handle_Call`
  statement handler, and `is_using_outdated_def`.

Python exceptions (`raise TypeError`) are modelled with `Except String`;
dictionaries are modelled as functions into `Option`; the Python `set` of
`Equivalence` records is modelled as a duplicate-free list.
-/

/-- Program locations (`CodeLocation`). Only equality of locations matters to
the propagator, so they are abstracted to naturals. -/
abbrev CodeLoc := Nat

/-- Binary operator kinds appearing in `Expr.BinaryOp` nodes that the AIL
engine handles (the `op` string of `ailment.Expr.BinaryOp`, restricted to the
operators the claims exercise). -/
inductive AilOp where
  | Add
  | Sub
  | Xor
  | Shl
  | Shr
deriving DecidableEq, Repr

mutual

/-- The value universe of the propagator: AIL expression nodes
(`ailment.Expr.*` plus `ailment.Stmt.Call`, which the engine also uses in
expression position), claripy bit-vector values (concrete `BVV`, the `TOP`
symbol created by `PropagatorState.top`, and `SpOffset`-relative symbols),
and the `values.Top` sentinel class.  Every AIL node carries its `def_at`
tag (`tags['def_at']`, the only tag the two source files read or write);
claripy values and the sentinel carry no tags. -/
inductive AExpr where
  | Tmp (tmpIdx : Nat) (bits : Nat) (defAt : Option CodeLoc)
  | Register (regOffset : Nat) (bits : Nat) (defAt : Option CodeLoc)
  | Const (value : Int) (bits : Nat) (defAt : Option CodeLoc)
  | Convert (fromBits : Nat) (toBits : Nat) (isSigned : Bool) (operand : AExpr)
      (defAt : Option CodeLoc)
  | StackBaseOffset (offset : Int) (bits : Nat) (defAt : Option CodeLoc)
  | BinaryOp (op : AilOp) (operand0 : AExpr) (operand1 : AExpr) (signed : Bool)
      (bits : Nat) (defAt : Option CodeLoc)
  | Call (target : AExpr) (args : AExprList) (retExpr : AExprOpt)
      (defAt : Option CodeLoc)
  | CBVV (value : Int) (width : Nat)
  | CTopBV (width : Nat)
  | CSpOffset (offset : Int) (width : Nat)
  | VTop (width : Nat)
deriving DecidableEq

/-- The argument list of a call node (a specialized `List AExpr`, kept in the
mutual block). -/
inductive AExprList where
  | nil
  | cons (head : AExpr) (tail : AExprList)
deriving DecidableEq

/-- The optional return expression of a call node (a specialized
`Option AExpr`, kept in the mutual block). -/
inductive AExprOpt where
  | noneE
  | someE (e : AExpr)
deriving DecidableEq

end

namespace AExpr

/-- `isinstance(x, ailment.Expr.Expression)`: true exactly for the AIL node
kinds (`ailment.Stmt.Call` also derives from `Expression` so that calls can
stand in expression position); false for claripy values and for the
`values.Top` sentinel. -/
def isAilExpression : AExpr → Bool
  | .Tmp .. | .Register .. | .Const .. | .Convert .. | .StackBaseOffset ..
  | .BinaryOp .. | .Call .. => true
  | _ => false

/-- `isinstance(x, ailment.statement.Call)`. -/
def isCall : AExpr → Bool
  | .Call .. => true
  | _ => false

/-- `isinstance(x, ailment.Expr.Const)`. -/
def isConstE : AExpr → Bool
  | .Const .. => true
  | _ => false

/-- `isinstance(x, ailment.Expr.Tmp)`. -/
def isTmpE : AExpr → Bool
  | .Tmp .. => true
  | _ => false

/-- `type(x) is Top` for the `values.Top` sentinel class. -/
def isValuesTop : AExpr → Bool
  | .VTop _ => true
  | _ => false

/-- `isinstance(x, claripy.ast.Base)`. -/
def isClaripy : AExpr → Bool
  | .CBVV .. | .CTopBV .. | .CSpOffset .. => true
  | _ => false

/-- `isinstance(x, int)`: no value that flows through the AIL propagator is a
plain Python integer (they are AIL nodes, claripy values or the sentinel), so
within this value universe the test is constantly false. -/
def isPyInt : AExpr → Bool
  | _ => false

/-- `isinstance(x, ailment.Expr.TaggedObject)`: all AIL nodes carry tags;
claripy values and the sentinel do not. -/
def isTaggedObject : AExpr → Bool := isAilExpression

/-- Read the node's `tags.get('def_at', None)`. Claripy values and the
sentinel have no tags, but they are also never asked for them behind an
`isinstance(..., TaggedObject)` guard. -/
def getDefAt : AExpr → Option CodeLoc
  | .Tmp _ _ d | .Register _ _ d | .Const _ _ d | .Convert _ _ _ _ d
  | .StackBaseOffset _ _ d | .BinaryOp _ _ _ _ _ d | .Call _ _ _ d => d
  | _ => none

/-- Write the node's `tags['def_at']` (`copied_expr.tags['def_at'] = def_at`
in `get_variable`); a no-op on untagged values, which the source never
retags. -/
def setDefAt : AExpr → Option CodeLoc → AExpr
  | .Tmp i b _, d => .Tmp i b d
  | .Register o b _, d => .Register o b d
  | .Const v b _, d => .Const v b d
  | .Convert f t s op _, d => .Convert f t s op d
  | .StackBaseOffset o b _, d => .StackBaseOffset o b d
  | .BinaryOp p a c s b _, d => .BinaryOp p a c s b d
  | .Call t as r _, d => .Call t as r d
  | e, _ => e

/-- The ailment `bits` attribute of an expression node (for `Convert` it is
`to_bits`).  For claripy values it coincides with the bit width; `Call`
nodes take their width from the return expression when present (never
consulted by the claims below). -/
def bitsA : AExpr → Nat
  | .Tmp _ b _ => b
  | .Register _ b _ => b
  | .Const _ b _ => b
  | .Convert _ t _ _ _ => t
  | .StackBaseOffset _ b _ => b
  | .BinaryOp _ _ _ _ b _ => b
  | .Call _ _ (.someE r) _ => bitsA r
  | .Call _ _ .noneE _ => 0
  | .CBVV _ w => w
  | .CTopBV w => w
  | .CSpOffset _ w => w
  | .VTop w => w

/-- The ailment `size` attribute: `bits // byte_width` with
`arch.byte_width = 8`. -/
def sizeBytes (e : AExpr) : Nat := e.bitsA / 8

/-- The claripy `size()` method: the bit width of a claripy value.  Only
claripy values reach the call sites that use it. -/
def claripySizeBits : AExpr → Nat
  | .CBVV _ w => w
  | .CTopBV w => w
  | .CSpOffset _ w => w
  | e => e.bitsA

end AExpr

/-- `PropagatorState.is_top`: a claripy `BVS` named `TOP` (or containing the
`TOP` variable).  AIL expressions, concrete claripy values, `SpOffset`
symbols and the `values.Top` sentinel are not claripy `TOP` values. -/
def is_top : AExpr → Bool
  | .CTopBV _ => true
  | _ => false

/-- The `Equivalence` records of `propagator.py` (lines 201-219), named
`AEquivalence` here because Lean's library already owns the name
`Equivalence`: equality and hash are structural over
`(codeloc, atom0, atom1)`. -/
structure AEquivalence where
  codeloc : CodeLoc
  atom0 : AExpr
  atom1 : AExpr
deriving DecidableEq

/-- A label attached to a register store by `PropagatorAILState.store_variable`:
`{'expr': ..., 'def_at': ...}`. -/
structure RegLabel where
  expr : Option AExpr
  defAt : Option CodeLoc
deriving DecidableEq

/-- One record of a labeled store: the stored (claripy) value, the width of
the store in bytes, and the attached labels. -/
structure RegEntry where
  value : AExpr
  sizeBytes : Nat
  labels : List RegLabel
deriving DecidableEq

/-- Modelled from the spec: the `LabeledMemory` store (spec section 4.2) is an
external collaborator (`angr.storage.memory_mixins.LabeledMemory`, not under
`src/`).  We model the addressable mapping restricted to exact-offset
records: a `store` is a strong update of the record at its offset, and a
read at `(offset, size)` is answered by the record stored at exactly that
offset when the requested width fits inside it (the unique covering record),
and is a missing-memory error otherwise. -/
abbrev RegFile := Nat → Option RegEntry

/-- Modelled from the spec: `LabeledMemory.load_with_labels` (spec section
4.2) — return the unique covering record's value and labels, or `none` for
the `SimMemoryMissingError` case. -/
def load_with_labels (regs : RegFile) (offset : Nat) (sizeBytes : Nat) :
    Option (AExpr × List RegLabel) :=
  match regs offset with
  | some e => if sizeBytes ≤ e.sizeBytes then some (e.value, e.labels) else none
  | none => none

/-- The IR-level abstract state (`PropagatorAILState`), restricted to the
components the claims exercise.  `replacements` is `_replacements`
(`defaultdict(dict)` from code locations to per-atom dictionaries),
`propCount` is `_prop_count` (`defaultdict(int)`), `equivalence` is
`_equivalence` (a Python set, modelled as a duplicate-free list),
`registers` is `_registers`, and `tmps` is `_tmps`. -/
structure PropagatorAILState where
  onlyConsts : Bool
  replacements : CodeLoc → Option (AExpr → Option AExpr)
  propCount : AExpr → Nat
  equivalence : List AEquivalence
  registers : RegFile
  tmps : Nat → Option AExpr

/-- Look an atom up in the replacement table at a location (absent inner
dictionaries and absent keys both read as "no replacement recorded"). -/
def lookupRepl (s : PropagatorAILState) (loc : CodeLoc) (atom : AExpr) :
    Option AExpr :=
  match s.replacements loc with
  | some m => m atom
  | none => none

/-- `self._replacements[codeloc][old] = new` (the `defaultdict` creates the
inner dictionary on demand). -/
def setRepl (s : PropagatorAILState) (loc : CodeLoc) (old new : AExpr) :
    PropagatorAILState :=
  { s with replacements := fun l =>
      if l = loc then some (fun a => if a = old then some new else lookupRepl s loc a)
      else s.replacements l }

/-- `PropagatorState.add_replacement` (`propagator.py` lines 115-132): drop
claripy `TOP` values; under `_only_consts` record only plain integers and
`values.Top` sentinels; otherwise record unconditionally. -/
def base_add_replacement (s : PropagatorAILState) (codeloc : CodeLoc)
    (old new : AExpr) : PropagatorAILState :=
  if is_top new then s
  else if s.onlyConsts then
    if new.isPyInt || new.isValuesTop then setRepl s codeloc old new else s
  else setRepl s codeloc old new

/-- The Top-sentinel eviction step of `add_replacement`: `if codeloc in
self._replacements and old in self._replacements[codeloc]:
del self._replacements[codeloc][old]` (a deleted key and a never-present
key read back identically). -/
def evictAt (s : PropagatorAILState) (codeloc : CodeLoc) (old : AExpr) :
    PropagatorAILState :=
  { s with replacements := fun l =>
      if l = codeloc then
        match s.replacements codeloc with
        | some m => some (fun a => if a = old then none else m a)
        | none => none
      else s.replacements l }

/-- The second-use eviction step of `add_replacement`: `for codeloc_ in
self._replacements: if old in self._replacements[codeloc_]:
del self._replacements[codeloc_][old]`. -/
def evictEverywhere (s : PropagatorAILState) (old : AExpr) :
    PropagatorAILState :=
  { s with replacements := fun l =>
      match s.replacements l with
      | some m => some (fun a => if a = old then none else m a)
      | none => none }

/-- The counter increment of `add_replacement`:
`self._prop_count[new] += 1`. -/
def bumpCount (s : PropagatorAILState) (new : AExpr) : PropagatorAILState :=
  { s with propCount := fun e => if e = new then s.propCount e + 1 else s.propCount e }

/-- `PropagatorAILState.add_replacement` (`propagator.py` lines 350-375):
reject call expressions; a `values.Top` sentinel evicts the `(codeloc, old)`
entry; a non-`Tmp` `old` with a non-constant AIL expression `new` bumps that
expression's use counter, records through the base method while the count is
at most 1, and deletes every recorded entry for `old` at every location once
it exceeds 1. -/
def add_replacement (s : PropagatorAILState) (codeloc : CodeLoc)
    (old new : AExpr) : PropagatorAILState :=
  if new.isCall then s
  else if new.isValuesTop then evictAt s codeloc old
  else
    let counted := !old.isTmpE && new.isAilExpression && !new.isConstE
    let s1 := if counted then bumpCount s new else s
    let propCnt := if counted then s1.propCount new else 0
    if propCnt ≤ 1 then base_add_replacement s1 codeloc old new
    else evictEverywhere s1 old

/-- `PropagatorAILState.filter_replacements` (`propagator.py` lines 377-388):
the loop is `for old, new in self._replacements.items()`, but `_replacements`
maps code locations to inner per-atom dictionaries, so `new` ranges over the
inner `dict` objects; `isinstance(new, ailment.Expr.Expression)` is false for
a `dict`, `to_remove` therefore stays empty, and the deletion loop removes
nothing.  The function leaves the state unchanged. -/
def filter_replacements (s : PropagatorAILState) : PropagatorAILState := s

/-- `PropagatorAILState.add_equivalence` (`propagator.py` lines 390-392):
`self._equivalence.add(Equivalence(codeloc, old, new))` — set insertion under
the structural equality of `Equivalence`. -/
def add_equivalence (s : PropagatorAILState) (codeloc : CodeLoc)
    (old new : AExpr) : PropagatorAILState :=
  let e : AEquivalence := ⟨codeloc, old, new⟩
  if e ∈ s.equivalence then s else { s with equivalence := e :: s.equivalence }

/-- `PropagatorAILState.copy` for the components we track: the replacement
table, counters, equivalence set and stores are (shallow-)copied, and the
tmp map is dropped (`# drop tmps`). -/
def PropagatorAILState.copy (s : PropagatorAILState) : PropagatorAILState :=
  { s with tmps := fun _ => none }

/-- Set union `state._equivalence |= o._equivalence`, inserting each element
of the second operand that the accumulated set does not already contain. -/
def unionEquiv (xs ys : List AEquivalence) : List AEquivalence :=
  ys.foldl (fun acc e => if e ∈ acc then acc else e :: acc) xs

/-- The per-pair body of the `PropagatorState.merge` loop (`propagator.py`
lines 100-111), expressed pointwise on the two tables: locations missing
from the accumulating state take the other operand's inner dictionary; atoms
missing take the other operand's value; atoms present in both keep the value
when the two agree and become `Top(self.arch.byte_width)` (the `values.Top`
sentinel at the byte width, 8) when they disagree. -/
def mergePoint (x y : Option AExpr) : Option AExpr :=
  match x, y with
  | none, none => none
  | some v, none => some v
  | none, some v => some v
  | some va, some vb => if va = vb then some va else some (.VTop 8)

/-- The merge of two replacement tables, assembled from the per-key rule. -/
def mergeReplacements (a b : CodeLoc → Option (AExpr → Option AExpr)) :
    CodeLoc → Option (AExpr → Option AExpr) := fun loc =>
  match a loc, b loc with
  | none, none => none
  | none, some mb => some mb
  | some ma, none => some ma
  | some ma, some mb => some (fun atom => mergePoint (ma atom) (mb atom))

/-- `PropagatorState.merge` (`propagator.py` lines 96-113): start from a copy
of `self` and fold every other state in, merging the replacement tables and
unioning the equivalence sets.  (The AIL subclass additionally merges the
two labeled stores through the external `LabeledMemory.merge`; the claim
under verification is about the base merge of the shared components.) -/
def PropagatorAILState.merge (s : PropagatorAILState)
    (others : List PropagatorAILState) : PropagatorAILState :=
  others.foldl
    (fun st o =>
      { st with
        replacements := mergeReplacements st.replacements o.replacements,
        equivalence := unionEquiv st.equivalence o.equivalence })
    s.copy

/-- `PropagatorAILState.get_variable` (`propagator.py` lines 301-340).
Temporaries read the scratch map.  Registers load with labels (a missing
record reads as `None`); when exactly one label is present its
`(expr, def_at)` pair is recovered; a `TOP` value with an origin expression
returns a copy of the expression retagged with the recorded definition site;
a `TOP` value without one returns the value, widened to a fresh `TOP` at the
declared width when the widths disagree; a concrete value is returned
directly, but a width disagreement on a concrete value raises `TypeError`
("Incorrect sized read"). -/
def get_variable (s : PropagatorAILState) (var0 : AExpr) :
    Except String (Option AExpr) :=
  match var0 with
  | .Tmp idx _ _ => .ok (s.tmps idx)
  | .Register off bits _ =>
    match load_with_labels s.registers off (bits / 8) with
    | none => .ok none
    | some (value, labels) =>
      let ed : Option AExpr × Option CodeLoc :=
        match labels with
        | [l] => (l.expr, l.defAt)
        | _ => (none, none)
      if is_top value then
        match ed.1 with
        | some e => .ok (some (e.setDefAt ed.2))
        | none =>
          if value.claripySizeBits ≠ bits then .ok (some (.CTopBV bits))
          else .ok (some value)
      else
        if value.claripySizeBits ≠ bits then
          .error ("Incorrect sized read. Expect " ++ toString bits ++ " bits.")
        else .ok (some value)
  | _ => .ok none

/-- Erase the `def_at` tags of a node and all of its sub-nodes; two nodes are
`likes`-equal (ailment structural equality up to tags and indices) exactly
when their erasures coincide. -/
def eraseTags : AExpr → AExpr
  | .Tmp i b _ => .Tmp i b none
  | .Register o b _ => .Register o b none
  | .Const v b _ => .Const v b none
  | .Convert f t s op _ => .Convert f t s (eraseTags op) none
  | .StackBaseOffset o b _ => .StackBaseOffset o b none
  | .BinaryOp p a c s b _ => .BinaryOp p (eraseTags a) (eraseTags c) s b none
  | .Call t as r _ => .Call (eraseTags t) (eraseTagsList as) (eraseTagsOpt r) none
  | e => e
where
  eraseTagsList : AExprList → AExprList
    | .nil => .nil
    | .cons h t => .cons (eraseTags h) (eraseTagsList t)
  eraseTagsOpt : AExprOpt → AExprOpt
    | .noneE => .noneE
    | .someE e => .someE (eraseTags e)

/-- Modelled from the spec: `Expression.has_atom(atom, identity=False)` of the
external ailment package — the value "syntactically contains the destination
atom" (spec section 4.4), where containment compares sub-nodes with ailment's
`likes` (structural equality up to tags). -/
def containsLike (value atom : AExpr) : Bool :=
  (eraseTags value = eraseTags atom) ||
  (match value with
   | .Convert _ _ _ op _ => containsLike op atom
   | .BinaryOp _ a b _ _ _ => containsLike a atom || containsLike b atom
   | .Call t as r _ =>
       containsLike t atom || containsLikeList as atom || containsLikeOpt r atom
   | _ => false)
where
  containsLikeList : AExprList → AExpr → Bool
    | .nil, _ => false
    | .cons h t, atom => containsLike h atom || containsLikeList t atom
  containsLikeOpt : AExprOpt → AExpr → Bool
    | .noneE, _ => false
    | .someE e, atom => containsLike e atom

/-- `PropagatorAILState.store_variable` (`propagator.py` lines 263-289):
no-op when either argument is `None` or when an expression value contains
the destination atom; temporaries store into the scratch map; registers
store into the register file with the `{'expr', 'def_at'}` label — a claripy
value is stored directly with no origin expression, an AIL expression is
retained only in the label while the stored value degrades to `TOP` at the
expression's width, and any other value type raises `TypeError`; any other
destination kind is skipped with a warning. -/
def store_variable (s : PropagatorAILState) (var0 : Option AExpr)
    (value : Option AExpr) (defAt : Option CodeLoc) :
    Except String PropagatorAILState :=
  match var0, value with
  | none, _ => .ok s
  | _, none => .ok s
  | some var, some value =>
    if value.isAilExpression && containsLike value var then .ok s
    else
      match var with
      | .Tmp idx _ _ =>
          .ok { s with tmps := fun i => if i = idx then some value else s.tmps i }
      | .Register off bits _ =>
          if value.isClaripy then
            .ok { s with registers := fun o =>
                    if o = off then
                      some { value := value, sizeBytes := bits / 8,
                             labels := [{ expr := none, defAt := defAt }] }
                    else s.registers o }
          else if value.isAilExpression then
            .ok { s with registers := fun o =>
                    if o = off then
                      some { value := .CTopBV value.bitsA, sizeBytes := bits / 8,
                             labels := [{ expr := some value, defAt := defAt }] }
                    else s.registers o }
          else .error "Unsupported value type"
      | _ => .ok s

/-- The machine-level abstract state (`PropagatorVEXState`), restricted to
the register store and the general-purpose register size
(`arch.bits // arch.byte_width`). -/
structure PropagatorVEXState where
  gprSize : Nat
  registers : RegFile

/-- `PropagatorVEXState.load_register` (`propagator.py` lines 186-195): a
read whose size differs from the general-purpose register size yields `TOP`
at `size * byte_width` bits (the `# TODO: Fix me` early exit); otherwise the
store is consulted and a missing record (`SimMemoryMissingError`) also
yields `TOP`.  No path raises. -/
def load_register (s : PropagatorVEXState) (offset sizeBytes : Nat) : AExpr :=
  if sizeBytes ≠ s.gprSize then .CTopBV (sizeBytes * 8)
  else
    match load_with_labels s.registers offset sizeBytes with
    | none => .CTopBV (sizeBytes * 8)
    | some (v, _) => v

/-- Modelled from the spec: the walker of `is_using_outdated_def`
(`engine_ail.py` lines 440-460) is built on the external `AILBlockWalker`,
which recursively visits every sub-expression (spec section 4.4: "walks
`expr`'s sub-expressions").  At each `Register` sub-reference the overridden
handler re-reads the state and marks the walk outdated when the returned
tagged value's `def_at` differs from the tag embedded in the sub-reference;
the state read can raise (through `get_variable`), which aborts the walk. -/
def walkOutdated (s : PropagatorAILState) : AExpr → Except String Bool
  | .Register off bits d =>
      match get_variable s (.Register off bits d) with
      | .error e => .error e
      | .ok (some v) => .ok (v.isTaggedObject && decide (v.getDefAt ≠ d))
      | .ok none => .ok false
  | .Convert _ _ _ op _ => walkOutdated s op
  | .BinaryOp _ e0 e1 _ _ _ =>
      match walkOutdated s e0 with
      | .error e => .error e
      | .ok b0 =>
        match walkOutdated s e1 with
        | .error e => .error e
        | .ok b1 => .ok (b0 || b1)
  | .Call t as r _ =>
      match walkOutdated s t with
      | .error e => .error e
      | .ok bt =>
        match walkOutdatedList s as with
        | .error e => .error e
        | .ok ba =>
          match walkOutdatedOpt s r with
          | .error e => .error e
          | .ok br => .ok (bt || ba || br)
  | _ => .ok false
where
  walkOutdatedList (s : PropagatorAILState) : AExprList → Except String Bool
    | .nil => .ok false
    | .cons h t =>
        match walkOutdated s h with
        | .error e => .error e
        | .ok bh =>
          match walkOutdatedList s t with
          | .error e => .error e
          | .ok bt => .ok (bh || bt)
  walkOutdatedOpt (s : PropagatorAILState) : AExprOpt → Except String Bool
    | .noneE => .ok false
    | .someE e => walkOutdated s e

/-- `SimEnginePropagatorAIL.is_using_outdated_def` (`engine_ail.py` lines
440-460): run the outdated-definition walker over the expression and report
its verdict. -/
def is_using_outdated_def (s : PropagatorAILState) (expr : AExpr) :
    Except String Bool :=
  walkOutdated s expr

/-- `type(new_expr) in [Expr.Register, Expr.Const, Expr.Convert,
Expr.BasePointerOffset]` (`engine_ail.py` line 145): the exact-type test of
`_ail_handle_Tmp`'s inline-substitution list.  `StackBaseOffset` is a
subclass of `BasePointerOffset` and no node has exact type
`BasePointerOffset`, so stack-base offsets do not pass the exact-type
test. -/
def typeInSafePropagationList : AExpr → Bool
  | .Register .. => true
  | .Const .. => true
  | .Convert .. => true
  | _ => false

/-- The per-run engine parameters of `SimEnginePropagatorAIL` that the
expression handlers consult: `_propagate_tmps`, `self._codeloc()`,
`self.ins_addr`, the optional `_stack_pointer_tracker` (exposing
`offset_before(ins_addr, reg_offset)`), and the architecture's
`sp_offset`, `bp_offset` and `bits`. -/
structure EngineConfig where
  propagateTmps : Bool
  codeloc : CodeLoc
  insAddr : Nat
  spTracker : Option (Nat → Nat → Option Int)
  spOffsetReg : Nat
  bpOffsetReg : Nat
  archBits : Nat

mutual

/-- The expression dispatch of the AIL transfer engine: the external
`SimEngineLightAILMixin._expr` dispatches each node kind to its
`_ail_handle_*` method of `SimEnginePropagatorAIL`, all embedded here as a
single match.  Per handler:

* `_ail_handle_Tmp` (lines 135-152): a stored value, when not outdated, is
  recorded as a replacement and returned when its exact type is in the safe
  inline-substitution list; every other path returns `TOP` at
  `expr.size * byte_width` bits (the `_propagate_tmps` test sits after the
  early return and both of its branches return the same `TOP`);
* `_ail_handle_Register` (lines 154-181): stack/base-pointer reads are
  special-cased through the tracker; otherwise a stored value that is not
  outdated is recorded as a replacement and returned, and the original
  expression is returned otherwise;
* `_ail_handle_Convert` (lines 203-223): `TOP` operands propagate (at
  `operand_expr.size() * byte_width` bits, the literal source expression); a
  nested conversion collapses to the inner operand exactly when the outer
  `from`/`to` widths equal the inner `to`/`from` widths (signedness is not
  consulted) and is re-associated otherwise; a constant folds immediately,
  masked to the target width; anything else is rewrapped;
* `_ail_handle_Add`/`_ail_handle_Sub` (lines 338-379): `TOP` operands
  propagate at the operand's width; constant pairs fold at `expr.bits`;
  a base-pointer offset adjusts by a constant in place; otherwise the node
  is rebuilt (`Add` without the original tags, `Sub` with them);
* `_ail_handle_Xor`/`_ail_handle_Shl`/`_ail_handle_Shr` (lines 403-434):
  `TOP` propagates (both shift branches use `operand_0`'s width, as in the
  source) and the node is otherwise rebuilt with tags;
* `_ail_handle_Const`/`_ail_handle_StackBaseOffset` (lines 225-226,
  381-382): returned unchanged;
* `_ail_handle_CallExpr` (lines 238-246): target and arguments are
  evaluated for their side effects and the call node itself is returned;
* claripy values and the `values.Top` sentinel have no registered handler;
  modelled from the spec (section 9): the catch-all returns the node
  unchanged.  No claim below evaluates such a node. -/
def evalExpr (cfg : EngineConfig) (s : PropagatorAILState) :
    AExpr → Except String (PropagatorAILState × AExpr)
  | .Tmp idx bits d =>
      match get_variable s (.Tmp idx bits d) with
      | .error e => .error e
      | .ok (some newExpr) =>
          (match is_using_outdated_def s newExpr with
           | .error e => .error e
           | .ok od =>
             if od then .ok (s, .CTopBV (bits / 8 * 8))
             else
               let s1 := add_replacement s cfg.codeloc (.Tmp idx bits d) newExpr
               if typeInSafePropagationList newExpr then .ok (s1, newExpr)
               else if !cfg.propagateTmps then .ok (s1, .CTopBV (bits / 8 * 8))
               else .ok (s1, .CTopBV (bits / 8 * 8)))
      | .ok none =>
          if !cfg.propagateTmps then .ok (s, .CTopBV (bits / 8 * 8))
          else .ok (s, .CTopBV (bits / 8 * 8))
  | .Register off bits d =>
      let special : Option (PropagatorAILState × AExpr) :=
        match cfg.spTracker with
        | none => none
        | some tr =>
          if off = cfg.spOffsetReg then
            match tr cfg.insAddr cfg.spOffsetReg with
            | some sb =>
                let ne : AExpr := .StackBaseOffset sb cfg.archBits none
                some (add_replacement s cfg.codeloc (.Register off bits d) ne, ne)
            | none => none
          else if off = cfg.bpOffsetReg then
            match tr cfg.insAddr cfg.bpOffsetReg with
            | some sb =>
                let ne : AExpr := .StackBaseOffset sb cfg.archBits none
                some (add_replacement s cfg.codeloc (.Register off bits d) ne, ne)
            | none => none
          else none
      match special with
      | some r => .ok r
      | none =>
          match get_variable s (.Register off bits d) with
          | .error e => .error e
          | .ok (some newExpr) =>
              (match is_using_outdated_def s newExpr with
               | .error e => .error e
               | .ok od =>
                 if !od then
                   .ok (add_replacement s cfg.codeloc (.Register off bits d) newExpr,
                        newExpr)
                 else .ok (s, .Register off bits d))
          | .ok none => .ok (s, .Register off bits d)
  | .Const v bits d => .ok (s, .Const v bits d)
  | .StackBaseOffset off bits d => .ok (s, .StackBaseOffset off bits d)
  | .Convert fromB toB sgn op d =>
      match evalExpr cfg s op with
      | .error e => .error e
      | .ok (s1, opv) =>
        if is_top opv then .ok (s1, .CTopBV (opv.claripySizeBits * 8))
        else
          match opv with
          | .Convert ifrom ito _isgn iop _idf =>
              if fromB = ito && toB = ifrom then .ok (s1, iop)
              else .ok (s1, .Convert ifrom toB sgn iop none)
          | .Const v _ _ => .ok (s1, .Const (Int.land v (2 ^ toB - 1)) toB none)
          | opv2 => .ok (s1, .Convert fromB toB sgn opv2 d)
  | .BinaryOp op e0 e1 sgn bits d =>
      match evalExpr cfg s e0 with
      | .error e => .error e
      | .ok (s1, op0) =>
      match evalExpr cfg s1 e1 with
      | .error e => .error e
      | .ok (s2, op1) =>
      match op with
      | .Add =>
          if is_top op0 then .ok (s2, .CTopBV op0.claripySizeBits)
          else if is_top op1 then .ok (s2, .CTopBV op1.claripySizeBits)
          else
            match op0, op1 with
            | .Const a _ _, .Const b _ _ => .ok (s2, .Const (a + b) bits none)
            | .StackBaseOffset o w dd, .Const b _ _ =>
                .ok (s2, .StackBaseOffset (o + b) w dd)
            | _, _ => .ok (s2, .BinaryOp .Add op0 op1 sgn bits none)
      | .Sub =>
          if is_top op0 then .ok (s2, .CTopBV op0.claripySizeBits)
          else if is_top op1 then .ok (s2, .CTopBV op1.claripySizeBits)
          else
            match op0, op1 with
            | .Const a _ _, .Const b _ _ => .ok (s2, .Const (a - b) bits none)
            | .StackBaseOffset o w dd, .Const b _ _ =>
                .ok (s2, .StackBaseOffset (o - b) w dd)
            | _, _ => .ok (s2, .BinaryOp .Sub op0 op1 sgn bits d)
      | .Xor =>
          if is_top op0 then .ok (s2, .CTopBV op0.claripySizeBits)
          else if is_top op1 then .ok (s2, .CTopBV op1.claripySizeBits)
          else .ok (s2, .BinaryOp .Xor op0 op1 sgn bits d)
      | .Shl =>
          if is_top op0 then .ok (s2, .CTopBV op0.claripySizeBits)
          else if is_top op1 then .ok (s2, .CTopBV op0.claripySizeBits)
          else .ok (s2, .BinaryOp .Shl op0 op1 sgn bits d)
      | .Shr =>
          if is_top op0 then .ok (s2, .CTopBV op0.claripySizeBits)
          else if is_top op1 then .ok (s2, .CTopBV op0.claripySizeBits)
          else .ok (s2, .BinaryOp .Shr op0 op1 sgn bits d)
  | .Call tgt args ret d =>
      match evalExpr cfg s tgt with
      | .error e => .error e
      | .ok (s1, _) =>
        match evalExprList cfg s1 args with
        | .error e => .error e
        | .ok s2 => .ok (s2, .Call tgt args ret d)
  | .CBVV v w => .ok (s, .CBVV v w)
  | .CTopBV w => .ok (s, .CTopBV w)
  | .CSpOffset o w => .ok (s, .CSpOffset o w)
  | .VTop w => .ok (s, .VTop w)

/-- Evaluate a call's arguments in order for their side effects
(`for arg in expr_stmt.args: _ = self._expr(arg)`). -/
def evalExprList (cfg : EngineConfig) (s : PropagatorAILState) :
    AExprList → Except String PropagatorAILState
  | .nil => .ok s
  | .cons h t =>
      match evalExpr cfg s h with
      | .error e => .error e
      | .ok (s1, _) => evalExprList cfg s1 t

end

/-- `SimEnginePropagatorAIL._ail_handle_Call` (`engine_ail.py` lines
105-119), the statement form: evaluate the target and every argument for
their side effects; when the statement carries a return expression, store a
fresh `TOP` of `ret_expr.size * byte_width` bits under the return atom with
the current location as its definition site, and record an equivalence
between the return atom and the call statement itself. -/
def handleCallStmt (cfg : EngineConfig) (s : PropagatorAILState) :
    AExpr → Except String PropagatorAILState
  | .Call tgt args ret d =>
      match evalExpr cfg s tgt with
      | .error e => .error e
      | .ok (s1, _) =>
        match evalExprList cfg s1 args with
        | .error e => .error e
        | .ok s2 =>
          match ret with
          | .someE retE =>
              (match store_variable s2 (some retE)
                       (some (.CTopBV (retE.sizeBytes * 8))) (some cfg.codeloc) with
               | .error e => .error e
               | .ok s3 => .ok (add_equivalence s3 cfg.codeloc retE (.Call tgt args ret d)))
          | .noneE => .ok s2
  | _ => .ok s

/-- The value component of an engine evaluation result (what the handler
hands back to its caller), `none` when the evaluation raised. -/
def evalValue (r : Except String (PropagatorAILState × AExpr)) : Option AExpr :=
  match r with
  | .ok (_, v) => some v
  | .error _ => none

/-- A replacement-table lookup inside an engine evaluation result, `none`
when the evaluation raised. -/
def evalReplAt (r : Except String (PropagatorAILState × AExpr)) (loc : CodeLoc)
    (atom : AExpr) : Option AExpr :=
  match r with
  | .ok (s, _) => lookupRepl s loc atom
  | .error _ => none

/-- Test fixture: the engine configuration of a function-wide run (tmp
propagation disabled, no stack-pointer tracker, 64-bit architecture; the
stack/base-pointer register offsets are placed away from the registers the
fixtures use). -/
def testCfg : EngineConfig := ⟨false, 0, 0, none, 1000, 1001, 64⟩

/-- Test fixture: a freshly created IR-level state (`only_consts` off, all
tables empty). -/
def emptyAILState : PropagatorAILState :=
  ⟨false, fun _ => none, fun _ => 0, [], fun _ => none, fun _ => none⟩

/-- Test fixture: a 64-bit register atom at offset 0. -/
def regA : AExpr := .Register 0 64 none

/-- Test fixture: a 64-bit register atom at offset 8 (a non-constant AIL
expression when used as a replacement value). -/
def regB : AExpr := .Register 8 64 none

/-- Test fixture: a 64-bit register atom at offset 16. -/
def regC : AExpr := .Register 16 64 none

/-- Test fixture: a call expression node (`call 100()` with no arguments and
no return-site atom). -/
def callE : AExpr := .Call (.Const 100 64 none) .nil .noneE none

/-- Test fixture for the outdated-definition scenario: register 0 holds a
`TOP` value whose origin expression is a read of register 8 tagged with
definition site 10, recorded at definition site 1; register 8 holds a `TOP`
value whose origin expression is the constant 5 recorded at definition site
2.  Reading register 0 therefore yields `Register 8` retagged with site 1,
while the state's current binding for register 8 carries site 2 — an
outdated candidate. -/
def c3State : PropagatorAILState :=
  { onlyConsts := false
    replacements := fun _ => none
    propCount := fun _ => 0
    equivalence := []
    registers := fun o =>
      if o = 0 then some ⟨.CTopBV 64, 8, [⟨some (.Register 8 64 (some 10)), some 1⟩]⟩
      else if o = 8 then some ⟨.CTopBV 64, 8, [⟨some (.Const 5 64 none), some 2⟩]⟩
      else none
    tmps := fun _ => none }

/-- Test fixture: `c3State` with tmp 0 bound to a read of register 8 tagged
with definition site 99 — an outdated candidate for a temporary read. -/
def c3TmpState : PropagatorAILState :=
  { c3State with
    tmps := fun i => if i = 0 then some (.Register 8 64 (some 99)) else none }

/-- Test fixture for the width-mismatch scenario: register 0 holds the
concrete 64-bit claripy value 5 (stored with size 8 bytes). -/
def c4AILState : PropagatorAILState :=
  { emptyAILState with
    registers := fun o =>
      if o = 0 then some ⟨.CBVV 5 64, 8, [⟨none, some 3⟩]⟩ else none }

/-- Test fixture: `c4AILState`'s sibling where the stored value has already
degraded to `TOP` (64 bits wide, no origin expression). -/
def c4TopState : PropagatorAILState :=
  { emptyAILState with
    registers := fun o =>
      if o = 0 then some ⟨.CTopBV 64, 8, [⟨none, some 3⟩]⟩ else none }

/-- Test fixture: a machine-level state on a 64-bit architecture
(`gpr_size = 8` bytes) with an empty register file. -/
def c4VEXState : PropagatorVEXState := ⟨8, fun _ => none⟩

/-- Test fixture: a block-local state in which tmp 0 was assigned the
constant 42 earlier in the block. -/
def c5State : PropagatorAILState :=
  { emptyAILState with
    tmps := fun i => if i = 0 then some (.Const 42 64 none) else none }

/-- Test fixture: a call statement `r0 := call 100()` whose return atom is
the 64-bit register at offset 0 (end-to-end scenario C). -/
def c7Call : AExpr := .Call (.Const 100 64 none) .nil (.someE regA) none

/-- Test fixture: the state produced by running the call-statement handler
on `c7Call` from the empty state: register 0 degrades to `TOP` with the
current location as its definition site, and the equivalence
`{loc 0, r0, call 100()}` is recorded. -/
def c7ResState : PropagatorAILState :=
  { emptyAILState with
    registers := fun o =>
      if o = 0 then some ⟨.CTopBV 64, 8, [⟨none, some 0⟩]⟩ else none
    equivalence := [⟨0, regA, c7Call⟩] }

/-- Test fixture: a state whose replacement table binds `(1, regA)` to the
constant 3 and whose equivalence set holds one triple. -/
def c9A : PropagatorAILState :=
  { emptyAILState with
    replacements := fun l =>
      if l = 1 then some (fun a => if a = regA then some (.Const 3 64 none) else none)
      else none
    equivalence := [⟨1, regA, regB⟩] }

/-- Test fixture: a state whose replacement table binds `(1, regA)` to the
constant 4 — disagreeing with `c9A` at that key — and whose equivalence set
holds a different triple. -/
def c9B : PropagatorAILState :=
  { emptyAILState with
    replacements := fun l =>
      if l = 1 then some (fun a => if a = regA then some (.Const 4 64 none) else none)
      else none
    equivalence := [⟨2, regB, regC⟩] }

/-- Helper: an AIL expression node is never the claripy `TOP` value. -/
theorem is_top_eq_false_of_isAilExpression (e : AExpr)
    (h : e.isAilExpression = true) : is_top e = false := by
  cases e <;> simp_all [is_top, AExpr.isAilExpression]

/-- Helper: how `setRepl` changes replacement-table lookups. -/
theorem lookupRepl_setRepl (s : PropagatorAILState) (loc : CodeLoc)
    (old new : AExpr) (l : CodeLoc) (a : AExpr) :
    lookupRepl (setRepl s loc old new) l a =
      if l = loc then (if a = old then some new else lookupRepl s loc a)
      else lookupRepl s l a := by
  by_cases h : l = loc <;> simp [setRepl, lookupRepl, h]

/-- Claim C1, the code evaluated at the failing input: the non-constant
expression `regB` is proposed as a replacement at the two distinct
(location, atom) pairs `(1, regA)` and `(2, regC)`.  The second call drives
the use counter to 2, but its eviction only deletes entries keyed by the
atom `regC`, and `filter_replacements` (whose loop type-tests the inner
dictionaries) removes nothing, so the published table still contains `regB`
at `(1, regA)` — the claim requires it to appear at no location. -/
theorem c1_code_evaluation :
    lookupRepl (filter_replacements
      (add_replacement (add_replacement emptyAILState 1 regA regB) 2 regC regB))
      1 regA = some regB ∧
    (filter_replacements
      (add_replacement (add_replacement emptyAILState 1 regA regB) 2 regC regB)).propCount
      regB = 2 ∧
    regB.isConstE = false ∧ regA ≠ regC :=
  ⟨rfl, rfl, rfl, by decide⟩

/-- Claim C5, the code evaluated at the failing input: with tmp propagation
disabled (`propagate_tmps = False`, as in every function-wide run), reading
tmp 0 — whose stored value is the constant 42 — still substitutes the
stored constant at the use site and records the replacement, because the
inline-substitution early return of `_ail_handle_Tmp` precedes the
`_propagate_tmps` test (whose two branches both return the same `TOP`,
leaving the flag without effect). -/
theorem c5_code_evaluation :
    testCfg.propagateTmps = false ∧
    c5State.tmps 0 = some (.Const 42 64 none) ∧
    evalValue (evalExpr testCfg c5State (.Tmp 0 64 none)) =
      some (.Const 42 64 none) ∧
    evalReplAt (evalExpr testCfg c5State (.Tmp 0 64 none)) 0 (.Tmp 0 64 none) =
      some (.Const 42 64 none) :=
  ⟨rfl, rfl, rfl, rfl⟩

/-- Claim C8: `Add(Const(a), Const(b))` folds to `Const(a+b)` at the `Add`
node's original bit-width, `Sub(Const(a), Const(b))` folds to `Const(a-b)`
at the original bit-width, and `Convert` of a `Const` folds immediately to a
`Const` masked (`value &= 2**to_bits - 1`) to the conversion's target
width. -/
theorem c8_constant_folding (cfg : EngineConfig) (s : PropagatorAILState)
    (a b : Int) (w1 w2 bits fromB toB : Nat) (sgn sg : Bool)
    (d d1 d2 : Option CodeLoc) :
    evalExpr cfg s (.BinaryOp .Add (.Const a w1 d1) (.Const b w2 d2) sgn bits d) =
      .ok (s, .Const (a + b) bits none) ∧
    evalExpr cfg s (.BinaryOp .Sub (.Const a w1 d1) (.Const b w2 d2) sgn bits d) =
      .ok (s, .Const (a - b) bits none) ∧
    evalExpr cfg s (.Convert fromB toB sg (.Const a w1 d1) d) =
      .ok (s, .Const (Int.land a (2 ^ toB - 1)) toB none) :=
  ⟨rfl, rfl, rfl⟩

/-- Claim C10: adding the same equivalence triple a second time leaves the
equivalence set unchanged, because `Equivalence` identity is structural over
`(codeloc, atom0, atom1)` and the set inserts only unseen elements. -/
theorem c10_add_equivalence_idempotent (s : PropagatorAILState)
    (loc : CodeLoc) (x y : AExpr) :
    add_equivalence (add_equivalence s loc x y) loc x y =
      add_equivalence s loc x y := by
  unfold add_equivalence
  by_cases h : (⟨loc, x, y⟩ : AEquivalence) ∈ s.equivalence
  · simp [h]
  · simp [h]

/-- Claim C3 counterexample: reading register 0 in `c3State` finds the
propagation candidate `Register 8` whose embedded definition site (1)
differs from the site of the state's current binding for register 8 (2); the
candidate is rejected, but the read returns the original register
expression, which is not `TOP` — the claim says the read yields `TOP` at
the call site. -/
theorem c3_counterexample :
    get_variable c3State regA = .ok (some (.Register 8 64 (some 1))) ∧
    is_using_outdated_def c3State (.Register 8 64 (some 1)) = .ok true ∧
    evalValue (evalExpr testCfg c3State regA) = some regA ∧
    is_top regA = false :=
  ⟨rfl, rfl, rfl, rfl⟩

/-- Claim C3 as amended: an outdated propagation candidate is rejected at
both temporary and register reads, but only a temporary read yields `TOP`
at the call site; a register read returns the original register expression
unchanged, with the state untouched. -/
theorem c3_outdated_rejection (cfg : EngineConfig) (s : PropagatorAILState)
    (idx bits off : Nat) (d : Option CodeLoc) (v : AExpr)
    (hsp : cfg.spTracker = none) :
    (get_variable s (.Tmp idx bits d) = .ok (some v) →
     is_using_outdated_def s v = .ok true →
     evalExpr cfg s (.Tmp idx bits d) = .ok (s, .CTopBV (bits / 8 * 8))) ∧
    (get_variable s (.Register off bits d) = .ok (some v) →
     is_using_outdated_def s v = .ok true →
     evalExpr cfg s (.Register off bits d) = .ok (s, .Register off bits d)) := by
  constructor
  · intro h1 h2
    simp [evalExpr, h1, h2, Except.bind]
  · intro h1 h2
    simp [evalExpr, hsp, h1, h2, Except.bind]

/-- Claim C3 witness: the amended statement applied to the concrete outdated
fixtures (tmp read yields `TOP`, register read returns the original
expression). -/
theorem c3_witness :
    evalExpr testCfg c3TmpState (.Tmp 0 64 none) = .ok (c3TmpState, .CTopBV 64) ∧
    evalExpr testCfg c3State (.Register 0 64 none) =
      .ok (c3State, .Register 0 64 none) :=
  ⟨(c3_outdated_rejection testCfg c3TmpState 0 64 0 none
      (.Register 8 64 (some 99)) rfl).1 rfl rfl,
   (c3_outdated_rejection testCfg c3State 0 64 0 none
      (.Register 8 64 (some 1)) rfl).2 rfl rfl⟩

/-- Claim C4 counterexample: reading register 0 of `c4AILState` (stored
concrete 64-bit value) at 32 bits makes the IR-level `get_variable` raise
`TypeError` — the claim says the IR-level variant never errors — while the
machine-level `load_register` with a size different from the GPR size
returns `TOP` without erroring — the claim says the machine-level variant
fails loudly. -/
theorem c4_counterexample :
    get_variable c4AILState (.Register 0 32 none) =
      .error "Incorrect sized read. Expect 32 bits." ∧
    load_register c4VEXState 0 4 = .CTopBV 32 ∧
    c4VEXState.gprSize = 8 :=
  ⟨rfl, rfl, rfl⟩

/-- Claim C4 as amended: the variants are the reverse of the claim — the
IR-level `get_variable` raises on a width mismatch against a concrete
stored value and degrades to `TOP` at the declared width only when the
stored value is already `TOP`, while the machine-level `load_register`
never raises and yields `TOP` whenever the requested size differs from the
GPR size. -/
theorem c4_width_mismatch (s : PropagatorAILState) (off bits : Nat)
    (d : Option CodeLoc) (entry : RegEntry)
    (hreg : s.registers off = some entry) (hcov : bits / 8 ≤ entry.sizeBytes)
    (hw : entry.value.claripySizeBits ≠ bits) :
    (is_top entry.value = false →
      get_variable s (.Register off bits d) =
        .error ("Incorrect sized read. Expect " ++ toString bits ++ " bits.")) ∧
    (is_top entry.value = true →
      (match entry.labels with | [l] => l.expr | _ => none) = none →
      get_variable s (.Register off bits d) = .ok (some (.CTopBV bits))) ∧
    (∀ (vs : PropagatorVEXState) (o sz : Nat), sz ≠ vs.gprSize →
      load_register vs o sz = .CTopBV (sz * 8)) := by
  refine ⟨?_, ?_, ?_⟩
  · intro htop
    simp [get_variable, load_with_labels, hreg, hcov, htop, hw]
  · intro htop hlab
    match hl : entry.labels with
    | [] => simp [get_variable, load_with_labels, hreg, hcov, htop, hw, hl]
    | [l] =>
        rw [hl] at hlab
        simp at hlab
        simp [get_variable, load_with_labels, hreg, hcov, htop, hw, hl, hlab]
    | l1 :: l2 :: t =>
        simp [get_variable, load_with_labels, hreg, hcov, htop, hw, hl]
  · intro vs o sz h
    simp [load_register, h]

/-- Claim C4 witness: the amended statement applied to the concrete
fixtures (concrete mismatch errors, `TOP` mismatch degrades, machine-level
mismatch degrades). -/
theorem c4_witness :
    get_variable c4AILState (.Register 0 32 none) =
      .error "Incorrect sized read. Expect 32 bits." ∧
    get_variable c4TopState (.Register 0 32 none) = .ok (some (.CTopBV 32)) ∧
    load_register c4VEXState 0 4 = .CTopBV 32 :=
  ⟨(c4_width_mismatch c4AILState 0 32 none ⟨.CBVV 5 64, 8, [⟨none, some 3⟩]⟩
      rfl (by decide) (by decide)).1 rfl,
   (c4_width_mismatch c4TopState 0 32 none ⟨.CTopBV 64, 8, [⟨none, some 3⟩]⟩
      rfl (by decide) (by decide)).2.1 rfl rfl,
   (c4_width_mismatch c4AILState 0 32 none ⟨.CBVV 5 64, 8, [⟨none, some 3⟩]⟩
      rfl (by decide) (by decide)).2.2 c4VEXState 0 4 (by decide)⟩

/-- Claim C6 counterexample: two nested conversions with mutually inverse
widths collapse to the bare inner operand for the signedness pairs
`(signed, signed)` and `(signed, unsigned)` alike — the handler compares
only the widths — so under either reading of the claim's signedness
condition one of these two inputs collapses where the claim requires a
conversion node to be returned. -/
theorem c6_counterexample :
    evalExpr testCfg emptyAILState
      (.Convert 64 32 true (.Convert 32 64 true (.Register 0 32 none) none) none) =
      .ok (emptyAILState, .Register 0 32 none) ∧
    evalExpr testCfg emptyAILState
      (.Convert 64 32 true (.Convert 32 64 false (.Register 0 32 none) none) none) =
      .ok (emptyAILState, .Register 0 32 none) :=
  ⟨rfl, rfl⟩

/-- Claim C6 as amended: a conversion whose operand evaluates to another
conversion collapses to the inner operand exactly when the outer
`from`/`to` widths equal the inner `to`/`from` widths; the signedness is
not consulted; in every other nested case a conversion node is returned. -/
theorem c6_convert_collapse (cfg : EngineConfig) (s s1 : PropagatorAILState)
    (fromB toB : Nat) (sgn : Bool) (op : AExpr) (d : Option CodeLoc)
    (ifrom ito : Nat) (isgn : Bool) (iop : AExpr) (idf : Option CodeLoc)
    (hop : evalExpr cfg s op = .ok (s1, .Convert ifrom ito isgn iop idf)) :
    evalExpr cfg s (.Convert fromB toB sgn op d) =
      .ok (s1, if fromB = ito ∧ toB = ifrom then iop
               else .Convert ifrom toB sgn iop none) := by
  by_cases h1 : fromB = ito <;> by_cases h2 : toB = ifrom <;>
    simp [evalExpr, hop, Except.bind, is_top, h1, h2]

/-- Claim C6 witness: the amended statement applied to a concrete nested
conversion with inverse widths and mismatched signedness. -/
theorem c6_witness :
    evalExpr testCfg emptyAILState
      (.Convert 64 32 true (.Convert 32 64 false (.Register 0 32 none) none) none) =
      .ok (emptyAILState,
           if (64 = 64 ∧ 32 = 32) then (.Register 0 32 none : AExpr)
           else .Convert 32 32 true (.Register 0 32 none) none) :=
  c6_convert_collapse testCfg emptyAILState emptyAILState 64 32 true
    (.Convert 32 64 false (.Register 0 32 none) none) none 32 64 false
    (.Register 0 32 none) none rfl

/-- Helper: an AIL expression node is never the `values.Top` sentinel. -/
theorem isValuesTop_eq_false_of_isAilExpression (e : AExpr)
    (h : e.isAilExpression = true) : e.isValuesTop = false := by
  cases e <;> simp_all [AExpr.isValuesTop, AExpr.isAilExpression]

/-- Helper: how the Top-sentinel eviction changes replacement-table
lookups. -/
theorem lookupRepl_evictAt (s : PropagatorAILState) (loc : CodeLoc)
    (old : AExpr) (l : CodeLoc) (a : AExpr) :
    lookupRepl (evictAt s loc old) l a =
      if l = loc ∧ a = old then none else lookupRepl s l a := by
  by_cases hl : l = loc
  · subst hl
    cases h : s.replacements l <;> by_cases ha : a = old <;>
      simp [evictAt, lookupRepl, h, ha]
  · simp [evictAt, lookupRepl, hl]

/-- Helper: how the second-use eviction changes replacement-table
lookups. -/
theorem lookupRepl_evictEverywhere (s : PropagatorAILState) (old : AExpr)
    (l : CodeLoc) (a : AExpr) :
    lookupRepl (evictEverywhere s old) l a =
      if a = old then none else lookupRepl s l a := by
  cases h : s.replacements l <;> by_cases ha : a = old <;>
    simp [evictEverywhere, lookupRepl, h, ha]

/-- Helper: the counter increment leaves the replacement table unchanged. -/
theorem lookupRepl_bumpCount (s : PropagatorAILState) (new : AExpr)
    (l : CodeLoc) (a : AExpr) :
    lookupRepl (bumpCount s new) l a = lookupRepl s l a := rfl

/-- Claim C2 counterexample: a call expression is a non-constant IR
expression and `regA` is not a temporary, yet `add_replacement` neither
increments the call's use counter nor records anything (the call-rejection
guard returns first), while the claim's contract demands an increment and a
first-use recording for every non-constant IR expression. -/
theorem c2_counterexample :
    add_replacement emptyAILState 1 regA callE = emptyAILState ∧
    (add_replacement emptyAILState 1 regA callE).propCount callE = 0 ∧
    lookupRepl (add_replacement emptyAILState 1 regA callE) 1 regA = none ∧
    callE.isAilExpression = true ∧ callE.isConstE = false ∧
    regA.isTmpE = false ∧ callE.isValuesTop = false :=
  ⟨rfl, rfl, rfl, rfl, rfl, rfl, rfl⟩

/-- Claim C2 as amended: the `add_replacement` contract with the call
exception made explicit — a call expression is rejected outright (no
eviction, no counting, no recording); a `values.Top` sentinel evicts the
`(location, old_atom)` entry and records nothing; a non-temporary `old_atom`
with a non-constant, non-call IR expression has the expression's use counter
incremented, the replacement recorded only when the post-increment count is
at most 1 (and `only_consts` is off), and every recorded entry for
`old_atom` at every location deleted when the count exceeds 1; constant
values bypass the counter. -/
theorem c2_add_replacement_contract (s : PropagatorAILState) (loc : CodeLoc)
    (old new : AExpr) :
    (new.isCall = true → add_replacement s loc old new = s) ∧
    (new.isValuesTop = true →
      lookupRepl (add_replacement s loc old new) loc old = none ∧
      (∀ l a, ¬(l = loc ∧ a = old) →
        lookupRepl (add_replacement s loc old new) l a = lookupRepl s l a) ∧
      (add_replacement s loc old new).propCount = s.propCount) ∧
    (new.isCall = false → old.isTmpE = false → new.isAilExpression = true →
     new.isConstE = false →
      ((add_replacement s loc old new).propCount new = s.propCount new + 1 ∧
       (s.propCount new = 0 → s.onlyConsts = false →
         lookupRepl (add_replacement s loc old new) loc old = some new) ∧
       (∀ l a v, lookupRepl (add_replacement s loc old new) l a = some v →
         lookupRepl s l a = some v ∨ (v = new ∧ s.propCount new = 0)) ∧
       (1 ≤ s.propCount new →
         ∀ l, lookupRepl (add_replacement s loc old new) l old = none))) ∧
    (new.isConstE = true →
      (add_replacement s loc old new).propCount = s.propCount ∧
      (s.onlyConsts = false →
        lookupRepl (add_replacement s loc old new) loc old = some new)) := by
  refine ⟨?_, ?_, ?_, ?_⟩
  · intro h
    simp [add_replacement, h]
  · intro h
    cases new <;> simp_all [AExpr.isValuesTop]
    case VTop w =>
      have heq : add_replacement s loc old (.VTop w) = evictAt s loc old := by
        rw [add_replacement]
        simp [AExpr.isCall, AExpr.isValuesTop]
      refine ⟨?_, ?_, ?_⟩
      · rw [heq, lookupRepl_evictAt, if_pos ⟨rfl, rfl⟩]
      · intro l a hla
        rw [heq, lookupRepl_evictAt, if_neg (fun hc => hla hc.1 hc.2)]
      · rw [heq]
        rfl
  · intro hcall htmp hail hconst
    have hvt : new.isValuesTop = false :=
      isValuesTop_eq_false_of_isAilExpression new hail
    have htop : is_top new = false := is_top_eq_false_of_isAilExpression new hail
    have hcounted :
        (!old.isTmpE && new.isAilExpression && !new.isConstE) = true := by
      simp [htmp, hail, hconst]
    have hb : (bumpCount s new).propCount new = s.propCount new + 1 := by
      simp [bumpCount]
    by_cases hz : s.propCount new = 0
    · have heq : add_replacement s loc old new =
          base_add_replacement (bumpCount s new) loc old new := by
        rw [add_replacement]
        simp only [hcall, hvt, hcounted, Bool.false_eq_true, ite_true,
          ite_false, if_false]
        rw [if_pos (by rw [hb, hz])]
      refine ⟨?_, ?_, ?_, ?_⟩
      · rw [heq, base_add_replacement]
        split_ifs <;> simp [setRepl, bumpCount]
      · intro _ ho
        rw [heq, base_add_replacement]
        rw [if_neg (by simp [htop]), if_neg (by simp [show (bumpCount s new).onlyConsts = false from ho])]
        rw [lookupRepl_setRepl]
        simp
      · intro l a v hv
        rw [heq, base_add_replacement] at hv
        rw [if_neg (by simp [htop])] at hv
        by_cases ho : s.onlyConsts = true
        · rw [if_pos (show (bumpCount s new).onlyConsts = true from ho)] at hv
          rw [if_neg (by simp [AExpr.isPyInt, hvt])] at hv
          exact Or.inl hv
        · rw [if_neg (show ¬((bumpCount s new).onlyConsts = true) from ho)] at hv
          rw [lookupRepl_setRepl] at hv
          by_cases hl : l = loc
          · by_cases ha : a = old
            · rw [if_pos hl, if_pos ha] at hv
              exact Or.inr ⟨(Option.some.inj hv).symm, hz⟩
            · rw [if_pos hl, if_neg ha] at hv
              subst hl
              exact Or.inl hv
          · rw [if_neg hl] at hv
            exact Or.inl hv
      · intro h1
        omega
    · have heq : add_replacement s loc old new =
          evictEverywhere (bumpCount s new) old := by
        rw [add_replacement]
        simp only [hcall, hvt, hcounted, Bool.false_eq_true, ite_true,
          ite_false, if_false]
        rw [if_neg (by rw [hb]; omega)]
      refine ⟨?_, ?_, ?_, ?_⟩
      · rw [heq]
        simp [evictEverywhere, bumpCount]
      · intro h1
        omega
      · intro l a v hv
        rw [heq, lookupRepl_evictEverywhere] at hv
        by_cases ha : a = old
        · rw [if_pos ha] at hv
          exact absurd hv (by simp)
        · rw [if_neg ha] at hv
          exact Or.inl hv
      · intro _ l
        rw [heq, lookupRepl_evictEverywhere, if_pos rfl]
  · intro hconst
    cases new <;> simp_all [AExpr.isConstE]
    case Const v w dd =>
      have hcf :
          (!old.isTmpE && (AExpr.Const v w dd).isAilExpression &&
            !(AExpr.Const v w dd).isConstE) = false := by
        simp [AExpr.isConstE]
      have heq : add_replacement s loc old (.Const v w dd) =
          base_add_replacement s loc old (.Const v w dd) := by
        rw [add_replacement]
        simp [hcf, AExpr.isCall, AExpr.isValuesTop]
      constructor
      · rw [heq, base_add_replacement]
        split_ifs <;> rfl
      · intro ho
        rw [heq, base_add_replacement]
        rw [if_neg (by simp [is_top]), if_neg (by simp [ho])]
        rw [lookupRepl_setRepl]
        simp

/-- Claim C2 witness: the amended contract applied to concrete inputs — a
sentinel eviction, a first-use recording of a non-constant expression, a
second-use deletion, and a constant bypassing the counter. -/
theorem c2_witness :
    lookupRepl (add_replacement emptyAILState 1 regA (.VTop 8)) 1 regA = none ∧
    (add_replacement emptyAILState 1 regA regB).propCount regB = 1 ∧
    lookupRepl (add_replacement emptyAILState 1 regA regB) 1 regA = some regB ∧
    lookupRepl (add_replacement
      (add_replacement emptyAILState 1 regA regB) 2 regC regB) 2 regC = none ∧
    (add_replacement emptyAILState 1 regA (.Const 7 64 none)).propCount =
      emptyAILState.propCount ∧
    lookupRepl (add_replacement emptyAILState 1 regA (.Const 7 64 none)) 1 regA =
      some (.Const 7 64 none) :=
  ⟨((c2_add_replacement_contract emptyAILState 1 regA (.VTop 8)).2.1 rfl).1,
   ((c2_add_replacement_contract emptyAILState 1 regA regB).2.2.1
      rfl rfl rfl rfl).1,
   ((c2_add_replacement_contract emptyAILState 1 regA regB).2.2.1
      rfl rfl rfl rfl).2.1 rfl rfl,
   ((c2_add_replacement_contract
      (add_replacement emptyAILState 1 regA regB) 2 regC regB).2.2.1
      rfl rfl rfl rfl).2.2.2 (by decide) 2,
   ((c2_add_replacement_contract emptyAILState 1 regA (.Const 7 64 none)).2.2.2
      rfl).1,
   ((c2_add_replacement_contract emptyAILState 1 regA (.Const 7 64 none)).2.2.2
      rfl).2 rfl⟩

/-- Helper: the freshly added triple is in the equivalence set after
`add_equivalence`. -/
theorem mem_add_equivalence (s : PropagatorAILState) (loc : CodeLoc)
    (x y : AExpr) :
    (⟨loc, x, y⟩ : AEquivalence) ∈ (add_equivalence s loc x y).equivalence := by
  unfold add_equivalence
  by_cases h : (⟨loc, x, y⟩ : AEquivalence) ∈ s.equivalence <;> simp [h]

/-- Helper: `add_equivalence` does not touch the register store. -/
theorem registers_add_equivalence (s : PropagatorAILState) (loc : CodeLoc)
    (x y : AExpr) :
    (add_equivalence s loc x y).registers = s.registers := by
  by_cases h : (⟨loc, x, y⟩ : AEquivalence) ∈ s.equivalence <;>
    simp [add_equivalence, h]

/-- Helper: any entry read back from `base_add_replacement`'s result was
either already recorded or is the newly offered value. -/
theorem lookupRepl_base_add_replacement (s : PropagatorAILState)
    (loc : CodeLoc) (old new : AExpr) (l : CodeLoc) (a v : AExpr)
    (hv : lookupRepl (base_add_replacement s loc old new) l a = some v) :
    lookupRepl s l a = some v ∨ v = new := by
  rw [base_add_replacement] at hv
  by_cases h1 : is_top new = true
  · rw [if_pos h1] at hv
    exact Or.inl hv
  · rw [if_neg h1] at hv
    by_cases h2 : s.onlyConsts = true
    · rw [if_pos h2] at hv
      by_cases h3 : (new.isPyInt || new.isValuesTop) = true
      · rw [if_pos h3, lookupRepl_setRepl] at hv
        by_cases hl : l = loc
        · by_cases ha : a = old
          · rw [if_pos hl, if_pos ha] at hv
            exact Or.inr (Option.some.inj hv).symm
          · rw [if_pos hl, if_neg ha] at hv
            exact Or.inl (hl ▸ hv)
        · rw [if_neg hl] at hv
          exact Or.inl hv
      · rw [if_neg h3] at hv
        exact Or.inl hv
    · rw [if_neg h2, lookupRepl_setRepl] at hv
      by_cases hl : l = loc
      · by_cases ha : a = old
        · rw [if_pos hl, if_pos ha] at hv
          exact Or.inr (Option.some.inj hv).symm
        · rw [if_pos hl, if_neg ha] at hv
          exact Or.inl (hl ▸ hv)
      · rw [if_neg hl] at hv
        exact Or.inl hv

/-- Claim C7: a call statement with a register return atom ends with `TOP`
(at the return atom's width) stored under that atom, tagged with the current
location as definition site, and with an equivalence between the return atom
and the call node recorded; and `add_replacement` never records a call
expression — offering one leaves the state unchanged, and any call-valued
entry readable after any `add_replacement` was already present before it. -/
theorem c7_call_handling (cfg : EngineConfig) (s : PropagatorAILState)
    (tgt : AExpr) (args : AExprList) (d : Option CodeLoc)
    (roff rbits : Nat) (rd : Option CodeLoc) (s' : PropagatorAILState)
    (hrun : handleCallStmt cfg s
      (.Call tgt args (.someE (.Register roff rbits rd)) d) = .ok s') :
    s'.registers roff =
      some ⟨.CTopBV (rbits / 8 * 8), rbits / 8, [⟨none, some cfg.codeloc⟩]⟩ ∧
    (⟨cfg.codeloc, .Register roff rbits rd,
        .Call tgt args (.someE (.Register roff rbits rd)) d⟩ : AEquivalence) ∈
      s'.equivalence ∧
    (∀ (t : PropagatorAILState) (loc : CodeLoc) (old nv : AExpr),
      nv.isCall = true → add_replacement t loc old nv = t) ∧
    (∀ (t : PropagatorAILState) (loc : CodeLoc) (old nv : AExpr)
       (l : CodeLoc) (a v : AExpr),
      lookupRepl (add_replacement t loc old nv) l a = some v → v.isCall = true →
      lookupRepl t l a = some v) := by
  have key : ∃ s3 : PropagatorAILState,
      s' = add_equivalence s3 cfg.codeloc (.Register roff rbits rd)
        (.Call tgt args (.someE (.Register roff rbits rd)) d) ∧
      s3.registers roff =
        some ⟨.CTopBV (rbits / 8 * 8), rbits / 8, [⟨none, some cfg.codeloc⟩]⟩ := by
    rw [handleCallStmt] at hrun
    cases htgt : evalExpr cfg s tgt with
    | error e =>
        simp only [htgt] at hrun
        exact absurd hrun (by simp)
    | ok p =>
        obtain ⟨s1, v1⟩ := p
        simp only [htgt] at hrun
        cases hargs : evalExprList cfg s1 args with
        | error e =>
            simp only [hargs] at hrun
            exact absurd hrun (by simp)
        | ok s2 =>
            simp only [hargs] at hrun
            have hst : store_variable s2 (some (.Register roff rbits rd))
                (some (.CTopBV ((AExpr.Register roff rbits rd).sizeBytes * 8)))
                (some cfg.codeloc) =
                .ok { s2 with registers := fun o =>
                        if o = roff then
                          some ⟨.CTopBV (rbits / 8 * 8), rbits / 8,
                                [⟨none, some cfg.codeloc⟩]⟩
                        else s2.registers o } := rfl
            simp only [hst] at hrun
            refine ⟨_, (Except.ok.inj hrun).symm, ?_⟩
            simp
  obtain ⟨s3, hs', hreg⟩ := key
  subst hs'
  refine ⟨?_, mem_add_equivalence s3 cfg.codeloc _ _, ?_, ?_⟩
  · rw [registers_add_equivalence]
    exact hreg
  · intro t loc old nv h
    simp [add_replacement, h]
  · intro t loc old nv l a v hv hvcall
    rw [add_replacement] at hv
    by_cases hc : nv.isCall = true
    · rw [if_pos hc] at hv
      exact hv
    · rw [if_neg hc] at hv
      by_cases hvt : nv.isValuesTop = true
      · rw [if_pos hvt, lookupRepl_evictAt] at hv
        by_cases hla : l = loc ∧ a = old
        · rw [if_pos hla] at hv
          exact absurd hv (by simp)
        · rw [if_neg hla] at hv
          exact hv
      · rw [if_neg hvt] at hv
        by_cases hcnt : (!old.isTmpE && nv.isAilExpression && !nv.isConstE) = true
        · simp only [hcnt, ite_true] at hv
          by_cases hle : (bumpCount t nv).propCount nv ≤ 1
          · rw [if_pos hle] at hv
            rcases lookupRepl_base_add_replacement _ _ _ _ _ _ _ hv with h | h
            · exact h
            · subst h
              exact absurd hvcall (by simp [hc])
          · rw [if_neg hle, lookupRepl_evictEverywhere] at hv
            by_cases ha : a = old
            · rw [if_pos ha] at hv
              exact absurd hv (by simp)
            · rw [if_neg ha] at hv
              exact hv
        · simp only [hcnt, Bool.false_eq_true, ite_false] at hv
          rw [if_pos (Nat.zero_le 1)] at hv
          rcases lookupRepl_base_add_replacement _ _ _ _ _ _ _ hv with h | h
          · exact h
          · subst h
            exact absurd hvcall (by simp [hc])

/-- Claim C7 witness: the statement applied to the concrete call
`r0 := call 100()` run from the empty state (end-to-end scenario C), whose
result state is `c7ResState`. -/
theorem c7_witness :
    c7ResState.registers 0 = some ⟨.CTopBV 64, 8, [⟨none, some 0⟩]⟩ ∧
    (⟨0, regA, c7Call⟩ : AEquivalence) ∈ c7ResState.equivalence ∧
    add_replacement emptyAILState 1 regA callE = emptyAILState :=
  ⟨(c7_call_handling testCfg emptyAILState (.Const 100 64 none) .nil none
      0 64 none c7ResState rfl).1,
   (c7_call_handling testCfg emptyAILState (.Const 100 64 none) .nil none
      0 64 none c7ResState rfl).2.1,
   (c7_call_handling testCfg emptyAILState (.Const 100 64 none) .nil none
      0 64 none c7ResState rfl).2.2.1 emptyAILState 1 regA callE rfl⟩

/-- Helper: membership in the set union built by `unionEquiv`. -/
theorem mem_unionEquiv (e : AEquivalence) (xs ys : List AEquivalence) :
    e ∈ unionEquiv xs ys ↔ e ∈ xs ∨ e ∈ ys := by
  induction ys generalizing xs with
  | nil => simp [unionEquiv]
  | cons y ys ih =>
    have step : unionEquiv xs (y :: ys) =
        unionEquiv (if y ∈ xs then xs else y :: xs) ys := rfl
    rw [step, ih]
    by_cases h : y ∈ xs
    · rw [if_pos h]
      constructor
      · rintro (hx | hy)
        · exact Or.inl hx
        · exact Or.inr (List.mem_cons_of_mem y hy)
      · rintro (hx | hy)
        · exact Or.inl hx
        · rcases List.mem_cons.mp hy with he | hm
          · exact Or.inl (he ▸ h)
          · exact Or.inr hm
    · rw [if_neg h]
      simp only [List.mem_cons]
      tauto

/-- Helper: a single-operand merge reads back pointwise as the per-key merge
rule applied to the two operands' entries. -/
theorem lookupRepl_merge (x y : PropagatorAILState) (loc : CodeLoc)
    (atom : AExpr) :
    lookupRepl (x.merge [y]) loc atom =
      mergePoint (lookupRepl x loc atom) (lookupRepl y loc atom) := by
  cases hx : x.replacements loc with
  | none =>
    cases hy : y.replacements loc with
    | none =>
        simp [PropagatorAILState.merge, PropagatorAILState.copy,
              mergeReplacements, lookupRepl, hx, hy, mergePoint]
    | some mb =>
        cases hmb : mb atom <;>
          simp [PropagatorAILState.merge, PropagatorAILState.copy,
                mergeReplacements, lookupRepl, hx, hy, hmb, mergePoint]
  | some ma =>
    cases hy : y.replacements loc with
    | none =>
        cases hma : ma atom <;>
          simp [PropagatorAILState.merge, PropagatorAILState.copy,
                mergeReplacements, lookupRepl, hx, hy, hma, mergePoint]
    | some mb =>
        simp [PropagatorAILState.merge, PropagatorAILState.copy,
              mergeReplacements, lookupRepl, hx, hy]

/-- Claim C9: the base merge is idempotent per key (`s.merge(s)` reads back
as `s` at every key) and commutative per key (`a.merge(b)` and `b.merge(a)`
agree at every key); a key recorded in both operands with different values
merges to the `Top(byte_width)` sentinel; and the merged equivalence set is
the union of the operands' equivalence sets. -/
theorem c9_merge_properties (a b : PropagatorAILState) (loc : CodeLoc)
    (atom : AExpr) (e : AEquivalence) :
    lookupRepl (a.merge [a]) loc atom = lookupRepl a loc atom ∧
    lookupRepl (a.merge [b]) loc atom = lookupRepl (b.merge [a]) loc atom ∧
    (∀ va vb, lookupRepl a loc atom = some va → lookupRepl b loc atom = some vb →
      va ≠ vb → lookupRepl (a.merge [b]) loc atom = some (.VTop 8)) ∧
    ((e ∈ (a.merge [b]).equivalence) ↔ e ∈ a.equivalence ∨ e ∈ b.equivalence) := by
  refine ⟨?_, ?_, ?_, ?_⟩
  · rw [lookupRepl_merge]
    cases h : lookupRepl a loc atom <;> simp [mergePoint]
  · rw [lookupRepl_merge, lookupRepl_merge]
    cases h1 : lookupRepl a loc atom <;> cases h2 : lookupRepl b loc atom <;>
      simp [mergePoint]
    case some.some va vb =>
      by_cases hv : va = vb
      · subst hv
        simp
      · rw [if_neg hv, if_neg (Ne.symm hv)]
  · intro va vb h1 h2 hne
    rw [lookupRepl_merge, h1, h2]
    simp [mergePoint, hne]
  · have hequiv : (a.merge [b]).equivalence =
        unionEquiv a.equivalence b.equivalence := rfl
    rw [hequiv]
    exact mem_unionEquiv e a.equivalence b.equivalence

/-- Claim C9 witness: the merge applied to the concrete disagreeing fixtures
— the shared key degrades to the sentinel and the equivalence union holds
the second operand's triple. -/
theorem c9_witness :
    lookupRepl (c9A.merge [c9B]) 1 regA = some (.VTop 8) ∧
    ((⟨2, regB, regC⟩ : AEquivalence) ∈ (c9A.merge [c9B]).equivalence ↔
      (⟨2, regB, regC⟩ : AEquivalence) ∈ c9A.equivalence ∨
      (⟨2, regB, regC⟩ : AEquivalence) ∈ c9B.equivalence) :=
  ⟨(c9_merge_properties c9A c9B 1 regA ⟨2, regB, regC⟩).2.2.1
      (.Const 3 64 none) (.Const 4 64 none) rfl rfl (by decide),
   (c9_merge_properties c9A c9B 1 regA ⟨2, regB, regC⟩).2.2.2⟩
